import Mathlib

/-!
Shallow embedding of `src/split_cli.py` (IOCCC submissions viewer), a
Textual-based dual-pane file browser.  The embedding models:

* the content pane's scroll state and the scroll actions of
  `ContentView` (`action_scroll_down` … `action_page_up`, lines 111-139),
  where an assignment to `scroll_y` is clamped to
  `[0, max 0 (virtual_size.height - size.height)]` by the Textual
  framework (`Widget.validate_scroll_y` calls
  `clamp(value, 0, self.max_scroll_y)`); Textual stores `scroll_y` as a
  float, but every value written by this program is an integer, so the
  embedding uses `Int`;
* the key handlers `ContentView.on_key` (lines 86-109),
  `FileTree.on_key` (enter branch, lines 255-277),
  `FileTree.action_expand_node` / `action_collapse_node` (lines 279-289),
  `FileTree.toggle_visibility` (lines 160-171),
  `MainScreen.action_switch_focus` and the highlight handler
  `FileTree.on_tree_node_highlighted` (lines 222-253);
* `FileTree.load_directory` (lines 187-220), which sorts each directory's
  entries with key `(not is_dir, name.lower())`, skips names starting
  with `.` and the name `__pycache__`, and recurses into directories.

Python string operations (`lower`, `startswith`, `endswith`, `in`,
`os.path.basename`, comparison) are re-implemented over the character
list of a `String` so that they compute inside the kernel; `lower` is
modelled on ASCII letters, which covers the file names this program sees.

The filesystem (`os.path.isfile`, `os.path.isdir`, `open().read()`,
`os.listdir`) is an external collaborator and is modelled as an explicit
oracle record `Fs`.
-/

namespace SplitCli

/-! ## Python string primitives, over `String.data` -/

/-- Python `str.lower` on one ASCII character. -/
def pyLowerChar (c : Char) : Char :=
  if 'A' ≤ c ∧ c ≤ 'Z' then Char.ofNat (c.toNat + 32) else c

/-- Python `str.lower` (ASCII fragment). -/
def pyLower (s : String) : String := ⟨s.data.map pyLowerChar⟩

/-- Python string comparison `a <= b`: lexicographic on code points. -/
def charListLe : List Char → List Char → Bool
  | [], _ => true
  | _ :: _, [] => false
  | a :: as, b :: bs => if a = b then charListLe as bs else decide (a < b)

/-- Python `s.endswith(t)`. -/
def pyEndsWith (s t : String) : Bool := List.isSuffixOf t.data s.data

/-- Python `s.startswith(t)`. -/
def pyStartsWith (s t : String) : Bool := List.isPrefixOf t.data s.data

/-- Python `t in s` (substring test). -/
def pyContains (s t : String) : Bool := decide (t.data <:+: s.data)

/-- Python `os.path.basename`: the part of the path after the last `/`. -/
def pyBasename (p : String) : String :=
  ⟨p.data.foldl (fun acc ch => if ch = '/' then [] else acc ++ [ch]) []⟩

/-! ## ScrollState: the content pane's scroll model

`offset` is `ContentView.scroll_y`, `viewportHeight` is
`ContentView.size.height`, `contentHeight` is
`ContentView.virtual_size.height`. -/

structure ScrollState where
  offset : Int
  viewportHeight : Nat
  contentHeight : Nat
deriving DecidableEq, Repr

/-- The largest legal scroll offset, Textual's `max_scroll_y`:
`max(0, virtual_size.height - container_size.height)`. -/
def maxScrollY (s : ScrollState) : Int :=
  max 0 ((s.contentHeight : Int) - (s.viewportHeight : Int))

/-- Assignment to `scroll_y`.  Textual's reactive validator
(`Widget.validate_scroll_y`) clamps every assigned value with
`clamp(value, 0, self.max_scroll_y)`. -/
def setScrollY (s : ScrollState) (v : Int) : ScrollState :=
  { s with offset := max 0 (min v (maxScrollY s)) }

/-- `ContentView.action_scroll_down`: `self.scroll_y += 1`. -/
def action_scroll_down (s : ScrollState) : ScrollState := setScrollY s (s.offset + 1)

/-- `ContentView.action_scroll_up`: `self.scroll_y -= 1`. -/
def action_scroll_up (s : ScrollState) : ScrollState := setScrollY s (s.offset - 1)

/-- `ContentView.action_scroll_home`: `self.scroll_y = 0`. -/
def action_scroll_home (s : ScrollState) : ScrollState := setScrollY s 0

/-- `ContentView.action_scroll_end`: `self.scroll_y = self.virtual_size.height`. -/
def action_scroll_end (s : ScrollState) : ScrollState := setScrollY s (s.contentHeight : Int)

/-- `ContentView.action_page_down`: `self.scroll_y += self.size.height - 2`. -/
def action_page_down (s : ScrollState) : ScrollState :=
  setScrollY s (s.offset + ((s.viewportHeight : Int) - 2))

/-- `ContentView.action_page_up`: `self.scroll_y -= self.size.height - 2`. -/
def action_page_up (s : ScrollState) : ScrollState :=
  setScrollY s (s.offset - ((s.viewportHeight : Int) - 2))

/-- The scroll mutators of `ContentView`, as an operation alphabet. -/
inductive ScrollOp where
  | scrollDown
  | scrollUp
  | scrollHome
  | scrollEnd
  | pageDown
  | pageUp
deriving DecidableEq, Repr

/-- Dispatch a scroll operation to the corresponding `ContentView` action. -/
def applyScrollOp : ScrollOp → ScrollState → ScrollState
  | .scrollDown, s => action_scroll_down s
  | .scrollUp, s => action_scroll_up s
  | .scrollHome, s => action_scroll_home s
  | .scrollEnd, s => action_scroll_end s
  | .pageDown, s => action_page_down s
  | .pageUp, s => action_page_up s

/-- Run a sequence of scroll operations left to right. -/
def runScrollOps (ops : List ScrollOp) (s : ScrollState) : ScrollState :=
  ops.foldl (fun s op => applyScrollOp op s) s

/-- The scroll invariant of the spec:
`0 ≤ offset ≤ max(0, contentHeight − viewportHeight)`. -/
def scrollInv (s : ScrollState) : Prop :=
  0 ≤ s.offset ∧ s.offset ≤ max 0 ((s.contentHeight : Int) - (s.viewportHeight : Int))

/-! ## Content buffer, focus, tree nodes, application state -/

/-- The spec's format tag (§4.2).  The Python code carries the format
only inside the buffer text (a ```c / ```makefile fence, or an error
prefix); the embedding threads this tag alongside the text, with the tag
determined by the branch of `on_tree_node_highlighted` that produced the
text. -/
inductive FormatHint where
  | plainText
  | c
  | makefile
  | dirSummary
  | error
deriving DecidableEq, Repr

/-- The current content of the viewer pane: `ContentView.render_text`
plus the spec-level format tag. -/
structure ContentBuffer where
  text : String
  hint : FormatHint
deriving DecidableEq, Repr

/-- Which pane holds keyboard focus (`tree.has_focus` / `content.has_focus`). -/
inductive Focus where
  | treeFocused
  | contentFocused
deriving DecidableEq, Repr

/-- One node of the `FileTree` widget: its display name, whether it was
added for a directory, its `is_expanded` flag, and its children. -/
inductive TreeNode where
  | mk (name : String) (isDir : Bool) (expanded : Bool) (children : List TreeNode)

def TreeNode.name : TreeNode → String
  | .mk n _ _ _ => n

def TreeNode.isDir : TreeNode → Bool
  | .mk _ d _ _ => d

def TreeNode.expanded : TreeNode → Bool
  | .mk _ _ e _ => e

def TreeNode.children : TreeNode → List TreeNode
  | .mk _ _ _ cs => cs

/-- Replace the `expanded` flag of a node (`node.expand()` / `node.collapse()`). -/
def TreeNode.withExpanded : TreeNode → Bool → TreeNode
  | .mk n d _ cs, e => .mk n d e cs

/-- The mutable state of the running application that the handlers under
scrutiny read and write: the focus holder, the sidebar visibility flag of
`FileTree`, the content pane's scroll state, the current content buffer,
the tree's highlighted node (`self.cursor_node`), and the remaining tree
nodes (never touched by the handlers modelled here). -/
structure AppState where
  focus : Focus
  sidebarVisible : Bool
  scroll : ScrollState
  buffer : ContentBuffer
  cursorNode : Option TreeNode
  restTree : List TreeNode

/-! ## ContentView key handling -/

/-- `ContentView.action_return_to_tree`: blur the content view and focus
the tree. -/
def action_return_to_tree (st : AppState) : AppState :=
  { st with focus := Focus.treeFocused }

/-- `ContentView.on_key` (lines 86-109): the chain of
`if event.key == …` branches.  Note that the `"g"` branch calls
`action_scroll_home` directly: there is no pending two-key state. -/
def ContentView.on_key (key : String) (st : AppState) : AppState :=
  if key = "j" then { st with scroll := action_scroll_down st.scroll }
  else if key = "k" then { st with scroll := action_scroll_up st.scroll }
  else if key = "g" then { st with scroll := action_scroll_home st.scroll }
  else if key = "G" then { st with scroll := action_scroll_end st.scroll }
  else if key = "ctrl+d" then { st with scroll := action_page_down st.scroll }
  else if key = "ctrl+u" then { st with scroll := action_page_up st.scroll }
  else if key = "enter" then action_return_to_tree st
  else st

/-! ## FileTree key handling and visibility -/

/-- The `enter` branch of `FileTree.on_key` (lines 264-277): if there is
a cursor node with children, toggle its expansion; otherwise (leaf)
blur the tree and focus the content view. -/
def FileTree.on_key_enter (st : AppState) : AppState :=
  match st.cursorNode with
  | none => st
  | some n =>
    if !n.children.isEmpty then
      if n.expanded then { st with cursorNode := some (n.withExpanded false) }
      else { st with cursorNode := some (n.withExpanded true) }
    else
      { st with focus := Focus.contentFocused }

/-- `FileTree.action_expand_node` (`zo`): expand the cursor node only if
it exists, has children, and is not already expanded. -/
def FileTree.action_expand_node (st : AppState) : AppState :=
  match st.cursorNode with
  | none => st
  | some n =>
    if !n.children.isEmpty && !n.expanded then
      { st with cursorNode := some (n.withExpanded true) }
    else st

/-- `FileTree.action_collapse_node` (`zc`): collapse the cursor node only
if it exists, has children, and is expanded. -/
def FileTree.action_collapse_node (st : AppState) : AppState :=
  match st.cursorNode with
  | none => st
  | some n =>
    if !n.children.isEmpty && n.expanded then
      { st with cursorNode := some (n.withExpanded false) }
    else st

/-- `FileTree.toggle_visibility` (lines 160-171): flip the flag, adjust
widths (view-only styling, not modelled), and focus the tree if it
became visible.  Nothing is done to focus when the tree becomes hidden. -/
def FileTree.toggle_visibility (st : AppState) : AppState :=
  let st' := { st with sidebarVisible := !st.sidebarVisible }
  if st'.sidebarVisible then { st' with focus := Focus.treeFocused } else st'

/-! ## Content loading on highlight -/

/-- The external filesystem collaborator: `os.path.isfile`,
`os.path.isdir`, `open(path).read()` (with undecodable bytes replaced;
failure carries the exception text), and the pair of counts
`(len(files), len(dirs))` computed from `os.listdir` (failure carries
the exception text). -/
structure Fs where
  isFile : String → Bool
  isDir : String → Bool
  readText : String → Except String String
  listCounts : String → Except String (Nat × Nat)

/-- The suffix dispatch of `on_tree_node_highlighted` (lines 230-236):
wrap `.c`/`.h` files in a ```c fence, `.mk` files and paths containing
"Makefile" in a ```makefile fence, and leave everything else unchanged.
The second component is the spec's format tag for the branch taken. -/
def wrapHighlighted (path content : String) : String × FormatHint :=
  if pyEndsWith path ".c" then ("```c\n" ++ content ++ "\n```", FormatHint.c)
  else if pyEndsWith path ".h" then ("```c\n" ++ content ++ "\n```", FormatHint.c)
  else if pyEndsWith path ".mk" || pyContains path "Makefile" then
    ("```makefile\n" ++ content ++ "\n```", FormatHint.makefile)
  else (content, FormatHint.plainText)

/-- The directory summary text built in lines 246-250. -/
def dirSummaryText (path : String) (numFiles numDirs : Nat) : String :=
  "# " ++ pyBasename path ++ "\n\n" ++
  "This directory contains:\n" ++
  "- " ++ toString numFiles ++ " files\n" ++
  "- " ++ toString numDirs ++ " directories\n\n" ++
  "Select a file to view its contents."

/-- `IOCCCViewer.update_content` composed with `ContentView.update`:
replace the buffer with the given content, or with a placeholder when
the content is empty.  The format tag rides along with the text. -/
def App.update_content (st : AppState) (label content : String) (hint : FormatHint) : AppState :=
  if content ≠ "" then { st with buffer := ⟨content, hint⟩ }
  else { st with buffer := ⟨"No content available for " ++ label, hint⟩ }

/-- `FileTree.on_tree_node_highlighted` (lines 222-253): when a node with
path data is highlighted, load the file (wrapping per suffix) or show a
directory summary; a read failure is caught and shown as an error
buffer.  Nothing else in the state is touched. -/
def FileTree.on_tree_node_highlighted (fs : Fs) (label : String)
    (data : Option String) (st : AppState) : AppState :=
  match data with
  | none => st
  | some path =>
    if path ≠ "" ∧ fs.isFile path = true then
      match fs.readText path with
      | Except.ok content =>
        let wrapped := wrapHighlighted path content
        App.update_content st label wrapped.1 wrapped.2
      | Except.error e =>
        App.update_content st label ("Error reading file: " ++ e) FormatHint.error
    else if fs.isDir path then
      match fs.listCounts path with
      | Except.ok counts =>
        App.update_content st label (dirSummaryText path counts.1 counts.2) FormatHint.dirSummary
      | Except.error e =>
        App.update_content st label ("Error reading directory: " ++ e) FormatHint.error
    else st

/-! ## Directory loading (`FileTree.load_directory`, lines 187-220) -/

/-- One entry of the on-disk subtree handed to `load_directory` by the
directory walker (`path.iterdir`, recursively). -/
inductive Entry where
  | file (name : String)
  | dir (name : String) (entries : List Entry)

def Entry.name : Entry → String
  | .file n => n
  | .dir n _ => n

def Entry.isDir : Entry → Bool
  | .file _ => false
  | .dir _ _ => true

/-- Python's sort key `(not p.is_dir(), p.name.lower())`. -/
def entryKey (e : Entry) : Bool × String := (!e.isDir, pyLower e.name)

/-- Comparison of sort keys: lexicographic on the pair, Python's tuple
order with `False < True` on booleans and code-point order on the
lowered names. -/
def keyLe : Bool × String → Bool × String → Bool
  | (d1, n1), (d2, n2) => if d1 = d2 then charListLe n1.data n2.data else decide (d1 < d2)

/-- The sort relation used by `sorted(path.iterdir(), key=…)`. -/
def entryLe (a b : Entry) : Prop := keyLe (entryKey a) (entryKey b) = true

instance : DecidableRel entryLe := fun a b => by unfold entryLe; infer_instance

/-- The skip test of lines 196-198, positively: an entry is kept unless
its name starts with `.` or is `__pycache__`. -/
def keepName (n : String) : Bool := !(pyStartsWith n "." || decide (n = "__pycache__"))

def keepEntry (e : Entry) : Bool := keepName e.name

/-- `sorted(path.iterdir(), key=lambda p: (not p.is_dir(), p.name.lower()))`. -/
def sortedChildren (es : List Entry) : List Entry := List.insertionSort entryLe es

/-- The entries actually added: the sort of line 193 followed by the
skip of lines 196-198. -/
def keptChildren (es : List Entry) : List Entry := (sortedChildren es).filter keepEntry

/-- `add_to_tree` (lines 191-217): build the node for one entry,
recursing into directory contents.  A freshly added Textual node is
collapsed. -/
def buildTree : Entry → TreeNode
  | .file n => TreeNode.mk n false false []
  | .dir n es =>
    TreeNode.mk n true false ((keptChildren es).attach.map fun x => buildTree x.1)
termination_by e => sizeOf e
decreasing_by
  simp_wf
  rename_i es
  have h1 : x.1 ∈ sortedChildren es := List.mem_of_mem_filter x.2
  have h2 : x.1 ∈ es := ((List.perm_insertionSort entryLe es).mem_iff).mp h1
  have h3 := List.sizeOf_lt_of_mem h2
  omega

/-- The node list built for one directory's entries. -/
def buildForest (es : List Entry) : List TreeNode := (keptChildren es).map buildTree

/-- The sort key of a built node, as read off the node itself. -/
def nodeKey (t : TreeNode) : Bool × String := (!t.isDir, pyLower t.name)

/-- Node order: directories before files, then case-insensitive name
order — the image of `entryLe` under `buildTree`. -/
def nodeLe (a b : TreeNode) : Prop := keyLe (nodeKey a) (nodeKey b) = true

/-- Well-formedness of a built node, hereditarily: its name is neither
hidden nor `__pycache__`, its children are sorted directories-first then
case-insensitively, and all descendants satisfy the same. -/
inductive NodeOk : TreeNode → Prop where
  | intro (t : TreeNode) :
      keepName t.name = true →
      List.Pairwise nodeLe t.children →
      (∀ c ∈ t.children, NodeOk c) →
      NodeOk t

/-! ## Concrete inputs used by witnesses and counterexamples -/

/-- The welcome text composed into the initial `ContentView`
(lines 310-323). -/
def welcomeText : String :=
  "Welcome to IOCCC Submissions Viewer!\n\n" ++
  "Navigation:\n" ++
  "- j/k: Move up/down in tree or scroll content\n" ++
  "- Enter: Open/close folders in tree, focus viewer for files\n" ++
  "- Enter (in viewer): Return to tree\n" ++
  "- zo/zc: Expand/collapse directories\n" ++
  "- fk: Focus viewer\n" ++
  "- fh: Focus sidebar\n" ++
  "- Tab: Switch between tree and content\n" ++
  "- ~: Toggle sidebar\n" ++
  "- q: Quit\n\n" ++
  "Content View Additional Controls:\n" ++
  "- Ctrl+u/Ctrl+d: Page up/down\n" ++
  "- gg/G: Jump to top/bottom"

/-- The state right after `MainScreen.on_mount`: the tree (holding the
loaded forest under the expanded root `Files`) has focus, the sidebar is
visible, the viewer shows the welcome text unscrolled. -/
def initialState (vh ch : Nat) (forest : List TreeNode) : AppState :=
  { focus := Focus.treeFocused
    sidebarVisible := true
    scroll := ⟨0, vh, ch⟩
    buffer := ⟨welcomeText, FormatHint.plainText⟩
    cursorNode := some (TreeNode.mk "Files" true true forest)
    restTree := [] }

/-- A filesystem oracle with one readable `.c` file, one unreadable
file, and one listable directory. -/
def fsDemo : Fs :=
  { isFile := fun p => decide (p = "assets/main.c") || decide (p = "assets/notes.txt")
    isDir := fun p => decide (p = "assets/sub")
    readText := fun p =>
      if p = "assets/main.c" then Except.ok "int main(void) return 0;" else Except.error "boom"
    listCounts := fun p =>
      if p = "assets/sub" then Except.ok (2, 1) else Except.error "denied" }

/-- A content-focused state scrolled to offset 5 in a 20-line buffer
shown through a 4-line viewport. -/
def stScrolled : AppState :=
  { focus := Focus.contentFocused
    sidebarVisible := true
    scroll := ⟨5, 4, 20⟩
    buffer := ⟨"some text", FormatHint.plainText⟩
    cursorNode := none
    restTree := [] }

/-- A tree-focused state whose cursor is on an empty directory node. -/
def stEmptyDir : AppState :=
  { focus := Focus.treeFocused
    sidebarVisible := true
    scroll := ⟨0, 4, 0⟩
    buffer := ⟨"x", FormatHint.plainText⟩
    cursorNode := some (TreeNode.mk "empty" true false [])
    restTree := [] }

/-- A node with children, currently expanded. -/
def nodeSrc : TreeNode :=
  TreeNode.mk "src" true true [TreeNode.mk "main.c" false false []]

/-- A tree-focused state whose cursor is on `nodeSrc`. -/
def stOnSrc : AppState :=
  { focus := Focus.treeFocused
    sidebarVisible := true
    scroll := ⟨0, 4, 0⟩
    buffer := ⟨"x", FormatHint.plainText⟩
    cursorNode := some nodeSrc
    restTree := [] }

/-! ## Helper lemmas -/

/-- Clamped assignment always lands inside the legal scroll range. -/
theorem setScrollY_inv (s : ScrollState) (v : Int) : scrollInv (setScrollY s v) := by
  constructor
  · simp [setScrollY, scrollInv]
  · simp [setScrollY, scrollInv, maxScrollY]
    omega

/-- Every `ContentView` scroll action re-establishes the scroll invariant. -/
theorem applyScrollOp_inv (op : ScrollOp) (s : ScrollState) : scrollInv (applyScrollOp op s) := by
  cases op <;> exact setScrollY_inv s _

/-! ## C3: scroll clamp invariant -/

/-- C3: for every sequence of scroll operations (j/k scrolling, paging,
jump to top, jump to bottom), after each operation the offset satisfies
`0 ≤ offset ≤ max 0 (contentHeight − viewportHeight)`; overshooting is
clamped rather than an error. -/
theorem C3_scroll_clamp_invariant (ops : List ScrollOp) (op : ScrollOp) (s : ScrollState) :
    scrollInv (applyScrollOp op (runScrollOps ops s)) :=
  applyScrollOp_inv op (runScrollOps ops s)

/-! ## C9: Enter in the content pane returns focus without side effects -/

/-- C9: pressing Enter while ContentFocused moves focus to the tree and
leaves every other component — in particular the scroll state and the
content buffer — exactly as it was. -/
theorem C9_enter_returns_to_tree (st : AppState) (_h : st.focus = Focus.contentFocused) :
    ContentView.on_key "enter" st = { st with focus := Focus.treeFocused } := rfl

theorem C9_enter_returns_to_tree_witness :
    ContentView.on_key "enter" stScrolled = { stScrolled with focus := Focus.treeFocused } :=
  C9_enter_returns_to_tree stScrolled rfl

/-! ## C1: there is no pending two-key `g` state -/

/-- C1: evaluating the code at the failing input: with the content pane
scrolled to offset 5, pressing `g` alone already scrolls to the top
(offset 0) — `ContentView.on_key` dispatches the single `g` straight to
`action_scroll_home` — and the following `j` then scrolls to offset 1,
not back to 5.  The pending-sequence cancellation the spec claims does
not exist in the code. -/
theorem C1_single_g_scrolls_home :
    stScrolled.scroll.offset = 5 ∧
    (ContentView.on_key "g" stScrolled).scroll.offset = 0 ∧
    (ContentView.on_key "j" (ContentView.on_key "g" stScrolled)).scroll.offset = 1 := by
  refine ⟨rfl, by decide, by decide⟩

/-! ## C4: hiding the sidebar does not move focus -/

/-- C4 is refuted: starting from the mount state (tree focused, sidebar
visible) one `~` toggle reaches a state whose sidebar is hidden while
the tree still holds focus. -/
theorem C4_counterexample :
    (FileTree.toggle_visibility (initialState 24 16 [])).sidebarVisible = false ∧
    (FileTree.toggle_visibility (initialState 24 16 [])).focus = Focus.treeFocused :=
  ⟨rfl, rfl⟩

/-- C4 (amended): toggling the sidebar flips the visibility flag; when
the sidebar becomes hidden the focus is left unchanged (a hidden tree
pane keeps focus), and only when it becomes visible again is focus
forced to the tree; scroll, buffer, cursor and tree are untouched. -/
theorem C4_toggle_visibility_focus (st : AppState) :
    (FileTree.toggle_visibility st).sidebarVisible = !st.sidebarVisible ∧
    (FileTree.toggle_visibility st).focus =
      (if st.sidebarVisible then st.focus else Focus.treeFocused) ∧
    (FileTree.toggle_visibility st).scroll = st.scroll ∧
    (FileTree.toggle_visibility st).buffer = st.buffer ∧
    (FileTree.toggle_visibility st).cursorNode = st.cursorNode ∧
    (FileTree.toggle_visibility st).restTree = st.restTree := by
  cases h : st.sidebarVisible <;> simp [FileTree.toggle_visibility, h]

/-! ## C5: activating an empty directory -/

/-- C5 is refuted: with the cursor on a childless directory node and the
tree focused, pressing Enter transfers focus to the content pane — the
code branches on `children`, not on the node kind, so a childless
directory is treated like a file leaf. -/
theorem C5_counterexample :
    stEmptyDir.focus = Focus.treeFocused ∧
    stEmptyDir.cursorNode.map TreeNode.isDir = some true ∧
    stEmptyDir.cursorNode.map TreeNode.children = some [] ∧
    (FileTree.on_key_enter stEmptyDir).focus = Focus.contentFocused :=
  ⟨rfl, rfl, rfl, rfl⟩

/-- C5 (amended): activating a node with zero children never toggles its
expansion — the node and the rest of the tree are unchanged — but it
does transfer focus to the content pane. -/
theorem C5_enter_on_childless (st : AppState) (n : TreeNode)
    (h : st.cursorNode = some n) (hc : n.children = []) :
    FileTree.on_key_enter st = { st with focus := Focus.contentFocused } := by
  obtain ⟨nm, d, e, cs⟩ := n
  simp only [TreeNode.children] at hc
  subst hc
  simp [FileTree.on_key_enter, h, TreeNode.children]

theorem C5_enter_on_childless_witness :
    FileTree.on_key_enter stEmptyDir = { stEmptyDir with focus := Focus.contentFocused } :=
  C5_enter_on_childless stEmptyDir (TreeNode.mk "empty" true false []) rfl rfl

/-! ## C8: toggle and force-expand/collapse idempotence -/

/-- C8: pressing Enter twice on the cursor node returns its `expanded`
flag to the original value; `zo` on an already-expanded node leaves the
whole state unchanged, and `zc` on an already-collapsed node leaves the
whole state unchanged. -/
theorem C8_toggle_idempotence (st : AppState) (n : TreeNode)
    (h : st.cursorNode = some n) :
    (FileTree.on_key_enter (FileTree.on_key_enter st)).cursorNode.map TreeNode.expanded
        = some n.expanded ∧
    (n.expanded = true → FileTree.action_expand_node st = st) ∧
    (n.expanded = false → FileTree.action_collapse_node st = st) := by
  obtain ⟨nm, d, e, cs⟩ := n
  refine ⟨?_, ?_, ?_⟩
  · cases cs with
    | nil =>
      simp [FileTree.on_key_enter, h, TreeNode.children, TreeNode.expanded]
    | cons c cs' =>
      cases e <;>
        simp [FileTree.on_key_enter, h, TreeNode.children, TreeNode.expanded,
          TreeNode.withExpanded]
  · intro he
    simp only [TreeNode.expanded] at he
    subst he
    simp [FileTree.action_expand_node, h, TreeNode.children, TreeNode.expanded]
  · intro he
    simp only [TreeNode.expanded] at he
    subst he
    simp [FileTree.action_collapse_node, h, TreeNode.children, TreeNode.expanded]

theorem C8_toggle_idempotence_witness :
    (FileTree.on_key_enter (FileTree.on_key_enter stOnSrc)).cursorNode.map TreeNode.expanded
        = some true ∧
    FileTree.action_expand_node stOnSrc = stOnSrc :=
  ⟨(C8_toggle_idempotence stOnSrc nodeSrc rfl).1,
   (C8_toggle_idempotence stOnSrc nodeSrc rfl).2.1 rfl⟩

/-- A string with a nonempty literal tail is nonempty. -/
theorem String_append_ne_empty (s t : String) (h : t.data ≠ []) : s ++ t ≠ "" := by
  intro heq
  have hd := congrArg String.data heq
  rw [String.data_append] at hd
  exact h (List.append_eq_nil.mp hd).2

/-- A string with a nonempty literal head is nonempty. -/
theorem String_prepend_ne_empty (s t : String) (h : s.data ≠ []) : s ++ t ≠ "" := by
  intro heq
  have hd := congrArg String.data heq
  rw [String.data_append] at hd
  exact h (List.append_eq_nil.mp hd).1

/-- The text produced by the suffix dispatch is nonempty whenever the
file content is (the fenced branches are nonempty regardless). -/
theorem wrapHighlighted_ne_empty (path content : String) (h : content ≠ "") :
    (wrapHighlighted path content).1 ≠ "" := by
  unfold wrapHighlighted
  split_ifs <;> simp only <;>
    first
      | exact String_append_ne_empty _ _ (by decide)
      | exact h

/-! ## C2: loading a `.c` file -/

/-- C2 is refuted: with the content pane scrolled to offset 5,
highlighting `assets/main.c` does load the file (the buffer becomes the
C-fenced text) but the scroll offset stays 5 — the code never resets
`scroll_y` when new content is loaded. -/
theorem C2_counterexample :
    (FileTree.on_tree_node_highlighted fsDemo "main.c" (some "assets/main.c") stScrolled).buffer
        = ⟨"```c\n" ++ "int main(void) return 0;" ++ "\n```", FormatHint.c⟩ ∧
    (FileTree.on_tree_node_highlighted fsDemo "main.c" (some "assets/main.c")
        stScrolled).scroll.offset = 5 :=
  ⟨rfl, rfl⟩

/-- C2 (amended): highlighting a file whose path ends in `.c` replaces
the buffer with the file text wrapped in a C fence (format tag C), and
leaves the scroll state — in particular the offset — exactly as it was
before the load. -/
theorem C2_load_c_file (fs : Fs) (label path content : String) (st : AppState)
    (hc : pyEndsWith path ".c" = true) (hp : path ≠ "")
    (hf : fs.isFile path = true) (hr : fs.readText path = Except.ok content) :
    FileTree.on_tree_node_highlighted fs label (some path) st
      = { st with buffer := ⟨"```c\n" ++ content ++ "\n```", FormatHint.c⟩ } ∧
    (FileTree.on_tree_node_highlighted fs label (some path) st).scroll = st.scroll := by
  have h2 : ("```c\n" ++ content ++ "\n```") ≠ "" := String_append_ne_empty _ _ (by decide)
  have h1 : FileTree.on_tree_node_highlighted fs label (some path) st
      = { st with buffer := ⟨"```c\n" ++ content ++ "\n```", FormatHint.c⟩ } := by
    simp [FileTree.on_tree_node_highlighted, hp, hf, hr, wrapHighlighted, hc,
      App.update_content, h2]
  exact ⟨h1, by rw [h1]⟩

theorem C2_load_c_file_witness :
    FileTree.on_tree_node_highlighted fsDemo "main.c" (some "assets/main.c") stScrolled
      = { stScrolled with
          buffer := ⟨"```c\n" ++ "int main(void) return 0;" ++ "\n```", FormatHint.c⟩ } :=
  (C2_load_c_file fsDemo "main.c" "assets/main.c" "int main(void) return 0;" stScrolled
    (by decide) (by decide) (by decide) rfl).1

/-! ## C7: a failed file read is recovered locally -/

/-- C7: when the file read fails, the highlight handler produces a
buffer whose text describes the failure (format tag Error) and returns
normally — the error is never escalated, and focus, cursor node, tree,
sidebar and scroll state are all left unchanged. -/
theorem C7_read_failure_is_local (fs : Fs) (label path e : String) (st : AppState)
    (hp : path ≠ "") (hf : fs.isFile path = true)
    (hr : fs.readText path = Except.error e) :
    FileTree.on_tree_node_highlighted fs label (some path) st
      = { st with buffer := ⟨"Error reading file: " ++ e, FormatHint.error⟩ } := by
  have h2 : ("Error reading file: " ++ e) ≠ "" := String_prepend_ne_empty _ _ (by decide)
  simp [FileTree.on_tree_node_highlighted, hp, hf, hr, App.update_content, h2]

theorem C7_read_failure_is_local_witness :
    FileTree.on_tree_node_highlighted fsDemo "notes.txt" (some "assets/notes.txt") stScrolled
      = { stScrolled with
          buffer := ⟨"Error reading file: " ++ "boom", FormatHint.error⟩ } :=
  C7_read_failure_is_local fsDemo "notes.txt" "assets/notes.txt" "boom" stScrolled
    (by decide) (by decide) rfl

/-! ## C10: highlighting alone loads content -/

/-- C10: merely highlighting a node (no Enter) replaces the buffer: a
file node loads the file's (suffix-wrapped) text, and a directory node
loads a summary of the directory's immediate children; nothing else in
the state changes. -/
theorem C10_highlight_loads (fs : Fs) (label path content : String) (nf nd : Nat)
    (st : AppState) :
    (path ≠ "" → fs.isFile path = true → fs.readText path = Except.ok content →
      content ≠ "" →
      FileTree.on_tree_node_highlighted fs label (some path) st
        = { st with
            buffer := ⟨(wrapHighlighted path content).1, (wrapHighlighted path content).2⟩ }) ∧
    (fs.isFile path = false → fs.isDir path = true →
      fs.listCounts path = Except.ok (nf, nd) →
      FileTree.on_tree_node_highlighted fs label (some path) st
        = { st with buffer := ⟨dirSummaryText path nf nd, FormatHint.dirSummary⟩ }) := by
  constructor
  · intro hp hf hr hce
    have h2 := wrapHighlighted_ne_empty path content hce
    simp [FileTree.on_tree_node_highlighted, hp, hf, hr, App.update_content, h2]
  · intro hf hd hl
    have h2 : dirSummaryText path nf nd ≠ "" := by
      unfold dirSummaryText
      exact String_append_ne_empty _ _ (by decide)
    simp [FileTree.on_tree_node_highlighted, hf, hd, hl, App.update_content, h2]

theorem C10_highlight_loads_witness :
    FileTree.on_tree_node_highlighted fsDemo "main.c" (some "assets/main.c") stOnSrc
      = { stOnSrc with
          buffer := ⟨(wrapHighlighted "assets/main.c" "int main(void) return 0;").1,
                     (wrapHighlighted "assets/main.c" "int main(void) return 0;").2⟩ } ∧
    FileTree.on_tree_node_highlighted fsDemo "sub" (some "assets/sub") stOnSrc
      = { stOnSrc with buffer := ⟨dirSummaryText "assets/sub" 2 1, FormatHint.dirSummary⟩ } :=
  ⟨(C10_highlight_loads fsDemo "main.c" "assets/main.c" "int main(void) return 0;" 0 0
      stOnSrc).1 (by decide) (by decide) rfl (by decide),
   (C10_highlight_loads fsDemo "sub" "assets/sub" "" 2 1 stOnSrc).2
      (by decide) (by decide) rfl⟩

/-! ## C6: sorting and exclusion in `load_directory` -/

/-- Code-point comparison of character lists is total. -/
theorem charListLe_total (a : List Char) : ∀ b, charListLe a b = true ∨ charListLe b a = true := by
  induction a with
  | nil => intro b; left; rfl
  | cons x xs ih =>
    intro b
    cases b with
    | nil => right; rfl
    | cons y ys =>
      by_cases hxy : x = y
      · subst hxy
        simpa [charListLe] using ih ys
      · rcases lt_or_gt_of_ne hxy with h | h
        · left; simp [charListLe, hxy, h]
        · right; simp [charListLe, Ne.symm hxy, h]

/-- Code-point comparison of character lists is transitive. -/
theorem charListLe_trans : ∀ (a b c : List Char),
    charListLe a b = true → charListLe b c = true → charListLe a c = true := by
  intro a
  induction a with
  | nil => intro b c _ _; rfl
  | cons x xs ih =>
    intro b c h1 h2
    cases b with
    | nil => simp [charListLe] at h1
    | cons y ys =>
      cases c with
      | nil => simp [charListLe] at h2
      | cons z zs =>
        by_cases hxy : x = y <;> by_cases hyz : y = z
        · subst hxy; subst hyz
          simp [charListLe] at h1 h2 ⊢
          exact ih ys zs h1 h2
        · subst hxy
          simp [charListLe, hyz] at h2
          simp [charListLe, hyz, h2]
        · subst hyz
          simp [charListLe, hxy] at h1
          simp [charListLe, hxy, h1]
        · simp [charListLe, hxy] at h1
          simp [charListLe, hyz] at h2
          have hxz : x < z := lt_trans h1 h2
          simp [charListLe, ne_of_lt hxz, hxz]

/-- The tuple-key comparison is total. -/
theorem keyLe_total (a b : Bool × String) : keyLe a b = true ∨ keyLe b a = true := by
  obtain ⟨d1, n1⟩ := a
  obtain ⟨d2, n2⟩ := b
  by_cases h : d1 = d2
  · subst h
    simpa [keyLe] using charListLe_total n1.data n2.data
  · rcases lt_or_gt_of_ne h with hlt | hlt
    · left; simp [keyLe, h, hlt]
    · right; simp [keyLe, Ne.symm h, hlt]

/-- The tuple-key comparison is transitive. -/
theorem keyLe_trans (a b c : Bool × String)
    (h1 : keyLe a b = true) (h2 : keyLe b c = true) : keyLe a c = true := by
  obtain ⟨d1, n1⟩ := a
  obtain ⟨d2, n2⟩ := b
  obtain ⟨d3, n3⟩ := c
  by_cases e1 : d1 = d2 <;> by_cases e2 : d2 = d3
  · subst e1; subst e2
    simp [keyLe] at h1 h2 ⊢
    exact charListLe_trans _ _ _ h1 h2
  · subst e1
    simp [keyLe, e2] at h2
    simp [keyLe, e2, h2]
  · subst e2
    simp [keyLe, e1] at h1
    simp [keyLe, e1, h1]
  · simp [keyLe, e1] at h1
    simp [keyLe, e2] at h2
    have h3 : d1 < d3 := lt_trans h1 h2
    simp [keyLe, ne_of_lt h3, h3]

/-- The kept entries of a directory are pairwise in sort order. -/
theorem keptChildren_pairwise (es : List Entry) : List.Pairwise entryLe (keptChildren es) := by
  have hs : List.Sorted entryLe (sortedChildren es) :=
    @List.sorted_insertionSort Entry entryLe _
      ⟨fun a b => keyLe_total (entryKey a) (entryKey b)⟩
      ⟨fun a b c h1 h2 => keyLe_trans (entryKey a) (entryKey b) (entryKey c) h1 h2⟩ es
  exact List.Pairwise.filter keepEntry hs

/-- Unfolding of `buildTree` on a directory entry. -/
theorem buildTree_dir (n : String) (es : List Entry) :
    buildTree (Entry.dir n es) = TreeNode.mk n true false (buildForest es) := by
  simp only [buildTree, buildForest]
  congr 1
  exact List.attach_map_val (keptChildren es) buildTree

/-- Building a node preserves the sort key. -/
theorem nodeKey_buildTree (e : Entry) : nodeKey (buildTree e) = entryKey e := by
  cases e with
  | file n =>
    simp [buildTree, nodeKey, entryKey, TreeNode.name, TreeNode.isDir, Entry.name, Entry.isDir]
  | dir n es =>
    rw [buildTree_dir]
    simp [nodeKey, entryKey, TreeNode.name, TreeNode.isDir, Entry.name, Entry.isDir]

/-- The built children of one directory are pairwise in node order. -/
theorem buildForest_pairwise (es : List Entry) : List.Pairwise nodeLe (buildForest es) := by
  rw [buildForest]
  refine List.Pairwise.map buildTree (fun a b hab => ?_) (keptChildren_pairwise es)
  show keyLe (nodeKey (buildTree a)) (nodeKey (buildTree b)) = true
  rw [nodeKey_buildTree, nodeKey_buildTree]
  exact hab

/-- Every node in a built forest is hereditarily well formed (fuel form). -/
theorem buildForest_ok (k : Nat) : ∀ (es : List Entry), sizeOf es ≤ k →
    ∀ t ∈ buildForest es, NodeOk t := by
  induction k with
  | zero =>
    intro es hk t _
    exfalso
    cases es <;> simp at hk
  | succ k ih =>
    intro es hk t ht
    rw [buildForest, List.mem_map] at ht
    obtain ⟨e, he, rfl⟩ := ht
    have hes : e ∈ es :=
      ((List.perm_insertionSort entryLe es).mem_iff).mp (List.mem_of_mem_filter he)
    have hkeep : keepEntry e = true := (List.mem_filter.mp he).2
    have hsz : sizeOf e < sizeOf es := List.sizeOf_lt_of_mem hes
    cases e with
    | file n =>
      refine NodeOk.intro _ ?_ ?_ ?_
      · simpa [keepEntry, Entry.name, buildTree, TreeNode.name] using hkeep
      · simp [buildTree, TreeNode.children]
      · simp [buildTree, TreeNode.children]
    | dir n cs =>
      rw [buildTree_dir]
      refine NodeOk.intro _ ?_ ?_ ?_
      · simpa [keepEntry, Entry.name, TreeNode.name] using hkeep
      · simpa [TreeNode.children] using buildForest_pairwise cs
      · intro c hc
        simp only [TreeNode.children] at hc
        refine ih cs ?_ c hc
        have hd : sizeOf (Entry.dir n cs) = 1 + sizeOf n + sizeOf cs := by simp
        omega

/-- C6: for every directory listing handed to `load_directory`, the
built children list is pairwise ordered directories-first then by
case-insensitive (lowered) name, and every node anywhere in the built
tree has sorted children and a name that neither starts with `.` nor
equals `__pycache__`. -/
theorem C6_children_sorted_and_excluded (es : List Entry) :
    List.Pairwise nodeLe (buildForest es) ∧ (buildForest es).Forall NodeOk :=
  ⟨buildForest_pairwise es,
   List.forall_iff_forall_mem.mpr (buildForest_ok (sizeOf es) es le_rfl)⟩

end SplitCli
